import Mathlib

/-!
Shallow embedding of the Ledger-Logic accounting application
(src/authenticate/models.py and src/authenticate/views.py).

Conventions of the embedding:
* Django `DecimalField` amounts are modelled as `ℚ` (exact decimal
  arithmetic on `+`, `-`; the one place that divides, `calculate_ratios`,
  models Python division by a zero `Decimal` as an explicit error).
* Dates are modelled as integers with the usual order; `timezone.now().date()`
  is passed in explicitly as a `today` parameter.
* Database tables are lists of records; primary keys are explicit
  counter-assigned natural numbers, and a row update is a map over the
  table that rewrites the rows matching the key.
* Flash messages are modelled by an inductive tag per distinct message
  (texts that matter to claims are noted in comments).
-/

namespace LedgerLogic

/-- Model of `CustomUser` (models.py lines 9-43): the fields read or written
by `CustomUser.save` and by the login view.  Passwords are modelled as plain
strings (hashing is framework code).  Suspension dates are `Option Int`. -/
structure CustomUser where
  username : String
  password : String
  is_active : Bool
  is_suspended : Bool
  failed_login_attempts : Int
  suspension_start_date : Option Int
  suspension_end_date : Option Int
  deriving Repr, DecidableEq

/-- `CustomUser.save` (models.py lines 45-59): if the user is not suspended,
both suspension dates are cleared; otherwise, if both dates are set the flag
is recomputed as `start <= today <= end`, and if not both set the flag is
cleared. Returns the stored row. -/
def CustomUser.save (u : CustomUser) (today : Int) : CustomUser :=
  if !u.is_suspended then
    { u with suspension_start_date := none, suspension_end_date := none }
  else
    match u.suspension_start_date, u.suspension_end_date with
    | some s, some e =>
        { u with is_suspended := decide (s ≤ today ∧ today ≤ e) }
    | _, _ => { u with is_suspended := false }

/-- Flash messages produced by the login view (views.py lines 54-121), one
tag per distinct message text. `suspendedTooManyAttempts` stands for the
text telling the user the account has been suspended after too many
attempts; `suspendedContactAdmin` for the text telling a suspended user to
reach out to an admin. -/
inductive LoginMsg where
  | success
  | suspendedContactAdmin
  | suspendedTooManyAttempts
  | invalidCredentials
  deriving Repr, DecidableEq

/-- Django `authenticate` with the default model backend (framework code):
returns the user whose username and password match, provided the user is
active. -/
def authenticate (users : List CustomUser) (username password : String) :
    Option CustomUser :=
  users.find? fun u =>
    u.username = username && u.password = password && u.is_active

/-- Store a row back into the user table, matching on username
(the view always saves the row it fetched). -/
def storeUser (users : List CustomUser) (u : CustomUser) : List CustomUser :=
  users.map fun x => if x.username = u.username then u else x

/-- `login_user`, POST branch (views.py lines 71-119).  Returns the updated
user table and the flash message.  Mirrors the source paths:
successful authentication first re-evaluates a set suspension window and
saves; a non-suspended user is logged in with the failed counter reset;
a failed authentication increments the failed counter of the named user if
that user exists, suspending at 5 or more attempts. -/
def login_user (users : List CustomUser) (username password : String)
    (today : Int) : List CustomUser × LoginMsg :=
  match authenticate users username password with
  | some user =>
      let step : List CustomUser × CustomUser :=
        match user.suspension_start_date, user.suspension_end_date with
        | some s, some e =>
            let user1 :=
              if s ≤ today ∧ today ≤ e then
                { user with is_suspended := true }
              else if e < today then
                { user with is_suspended := false,
                            suspension_start_date := none,
                            suspension_end_date := none }
              else user
            let stored := user1.save today
            (storeUser users stored, stored)
        | _, _ => (users, user)
      let users1 := step.1
      let user1 := step.2
      if !user1.is_suspended then
        let stored := ({ user1 with failed_login_attempts := 0 }).save today
        (storeUser users1 stored, LoginMsg.success)
      else
        (users1, LoginMsg.suspendedContactAdmin)
  | none =>
      match users.find? fun u => u.username = username with
      | some user =>
          let user1 :=
            { user with failed_login_attempts := user.failed_login_attempts + 1 }
          if user1.failed_login_attempts ≥ (5 : Int) then
            let stored :=
              ({ user1 with is_suspended := true,
                            failed_login_attempts := 0 }).save today
            (storeUser users stored, LoginMsg.suspendedTooManyAttempts)
          else
            (storeUser users (user1.save today), LoginMsg.invalidCredentials)
      | none => (users, LoginMsg.invalidCredentials)

/-- Model of a `ChartOfAccounts` row (models.py lines 108-129), keeping the
fields the verified operations read or write.  `account_name` is the key
(it carries `unique=True` in the source).  `normal_side` is the stored
string, compared against "Left" / "Right" exactly as the source does. -/
structure Account where
  account_name : String
  normal_side : String
  account_category : String
  initial_balance : ℚ
  debit : ℚ
  credit : ℚ
  balance : ℚ
  is_active : Bool
  deriving Repr, DecidableEq

/-- Journal entry status (models.py lines 223-227 plus the string
"Rejected" written by the reject branch of `journal_entry_page`). -/
inductive EStatus where
  | pending
  | approved
  | denied
  | rejected
  deriving Repr, DecidableEq

/-- Model of a `JournalEntry` row (models.py lines 216-244). -/
structure Entry where
  id : Nat
  date : Int
  accountName : String
  debit : ℚ
  credit : ℚ
  status : EStatus
  group : Option Nat
  deriving Repr, DecidableEq

/-- Model of a `GeneralLedger` row (models.py lines 177-202). -/
structure GLRow where
  accountName : String
  entryId : Option Nat
  date_of_journal_entry : Int
  description : String
  debit : ℚ
  credit : ℚ
  balance : ℚ
  deriving Repr, DecidableEq

/-- The accounting database: the tables touched by the journal-entry and
chart-of-accounts operations, plus the primary-key counters the ORM would
assign. -/
structure DB where
  accounts : List Account
  entries : List Entry
  ledger : List GLRow
  groups : List Nat
  nextGroup : Nat
  nextEntry : Nat
  deriving Repr, DecidableEq

def emptyDB : DB := ⟨[], [], [], [], 0, 0⟩

/-- Row lookup by account name (`ChartOfAccounts.objects.get(account_name=...)`). -/
def findAccount (db : DB) (name : String) : Option Account :=
  db.accounts.find? fun a => a.account_name = name

/-- Row lookup by journal entry primary key. -/
def findEntry (db : DB) (eid : Nat) : Option Entry :=
  db.entries.find? fun e => e.id = eid

/-- Row update: rewrite the rows matching the predicate (for the unique keys
used here, at most one row matches). -/
def updateWhere (p : α → Bool) (f : α → α) (l : List α) : List α :=
  l.map fun x => if p x then f x else x

/-- `JournalEntry.approve` (models.py lines 262-290), lifted to the database
state and the primary key of the entry.  A pending entry becomes Approved,
the owning account accumulates the entry debit and credit and gets balance
`initial_balance + debit - credit` over the updated totals, and one
GeneralLedger row is inserted carrying the entry amounts and the updated
account balance.  A non-pending entry changes nothing. -/
def JournalEntry.approve (db : DB) (eid : Nat) : DB :=
  match findEntry db eid with
  | none => db
  | some e =>
    if e.status = EStatus.pending then
      match findAccount db e.accountName with
      | none => db
      | some a =>
        let a2 : Account :=
          { a with
            debit := a.debit + e.debit,
            credit := a.credit + e.credit,
            balance := a.initial_balance + (a.debit + e.debit)
                        - (a.credit + e.credit) }
        let row : GLRow :=
          { accountName := e.accountName,
            entryId := some eid,
            date_of_journal_entry := e.date,
            description := "Approved Journal Entry: " ++ toString eid,
            debit := e.debit,
            credit := e.credit,
            balance := a2.balance }
        { db with
          entries := updateWhere (fun x => x.id = eid)
                        (fun x => { x with status := EStatus.approved }) db.entries,
          accounts := updateWhere (fun x => x.account_name = e.accountName)
                        (fun _ => a2) db.accounts,
          ledger := db.ledger ++ [row] }
    else db

/-- The approve branch of `journal_entry_page` (views.py lines 590-599):
fetch the entries of the group and approve each in turn (the subsequent
plain `account.save()` of the source re-saves the account unchanged). -/
def approveGroupPost (db : DB) (gid : Nat) : DB :=
  (db.entries.filter fun e => e.group = some gid).foldl
    (fun d e => JournalEntry.approve d e.id) db

/-- The reject branch of `journal_entry_page` (views.py lines 602-609):
every entry of the group gets status "Rejected", with no check of its
current status. -/
def rejectGroupPost (db : DB) (gid : Nat) : DB :=
  { db with
    entries := updateWhere (fun e => e.group = some gid)
                 (fun e => { e with status := EStatus.rejected }) db.entries }

/-- Form input of `add_journal_entry` (views.py lines 647-658): the debit
and credit fields are `none` when missing or empty, `some q` when a parsed
decimal was submitted. -/
structure JEInput where
  account1 : String
  debit1 : Option ℚ
  date1 : Int
  account2 : String
  credit2 : Option ℚ
  date2 : Int
  deriving Repr, DecidableEq

/-- `add_journal_entry`, POST branch (views.py lines 647-744).  Performs the
validation chain of the source in order: presence of debit and credit, both
greater than 0, equality, existence of both accounts, account 1 normal side
Left, account 2 normal side Right; on success creates one group and the two
pending entries, on failure reports the error message and leaves the
database untouched. -/
def add_journal_entry (db : DB) (inp : JEInput) : Except String DB :=
  match inp.debit1, inp.credit2 with
  | some debit, some credit =>
    if debit ≤ 0 ∨ credit ≤ 0 then
      Except.error ("Debit and credit values must be greater than 0.")
    else if debit ≠ credit then
      Except.error ("The total debit and credit values must match.")
    else
      match findAccount db inp.account1, findAccount db inp.account2 with
      | some a1, some a2 =>
        if a1.normal_side ≠ "Left" then
          Except.error ("Account 1 must be a normal side left account.")
        else if a2.normal_side ≠ "Right" then
          Except.error ("Account 2 must be a normal side right account.")
        else
          let e1 : Entry :=
            { id := db.nextEntry, date := inp.date1,
              accountName := inp.account1, debit := debit, credit := 0,
              status := EStatus.pending, group := some db.nextGroup }
          let e2 : Entry :=
            { id := db.nextEntry + 1, date := inp.date2,
              accountName := inp.account2, debit := 0, credit := credit,
              status := EStatus.pending, group := some db.nextGroup }
          Except.ok
            { db with
              groups := db.groups ++ [db.nextGroup],
              nextGroup := db.nextGroup + 1,
              entries := db.entries ++ [e1, e2],
              nextEntry := db.nextEntry + 2 }
      | _, _ =>
        Except.error ("One or more accounts do not exist in the Chart of Accounts.")
  | _, _ => Except.error ("Debit and credit values must be entered.")

/-- `add_account` (views.py lines 401-422).  Modelled from the spec:
`ChartOfAccountForm` lives in forms.py, which is not under src/; the spec
lists chart-of-accounts CRUD among the routes, so the form is modelled as
supplying the account fields.  The `unique=True` constraint on
`account_name` makes creation with a taken name fail without a change. -/
def add_account (db : DB) (a : Account) : DB :=
  match findAccount db a.account_name with
  | some _ => db
  | none => { db with accounts := db.accounts ++ [a] }

/-- `edit_account` (views.py lines 425-461).  Modelled from the spec:
`ChartOfAccountForm` is not under src/; the spec describes the chart of
accounts as a registry with category and normal-side metadata under CRUD,
so an edit is modelled as rewriting the normal side and category of the
named account (the key `account_name` stays fixed, standing for the
pk-bound form instance). -/
def edit_account (db : DB) (name side cat : String) : DB :=
  { db with
    accounts := updateWhere (fun a => a.account_name = name)
                  (fun a => { a with normal_side := side,
                                     account_category := cat }) db.accounts }

/-- `deactivate_account` (views.py lines 464-499): refused when the account
balance is greater than 0, otherwise clears `is_active`. -/
def deactivate_account (db : DB) (name : String) : DB :=
  match findAccount db name with
  | none => db
  | some a =>
    if a.balance > 0 then db
    else
      { db with
        accounts := updateWhere (fun x => x.account_name = name)
                      (fun x => { x with is_active := false }) db.accounts }

/-- `activate_account` (views.py lines 502-529): sets `is_active`. -/
def activate_account (db : DB) (name : String) : DB :=
  { db with
    accounts := updateWhere (fun x => x.account_name = name)
                  (fun x => { x with is_active := true }) db.accounts }

/-- The operations of the program that touch the accounting tables. -/
inductive Op where
  | addJE (inp : JEInput)
  | approveGroup (gid : Nat)
  | rejectGroup (gid : Nat)
  | addAccount (a : Account)
  | editAccount (name side cat : String)
  | deactivateAccount (name : String)
  | activateAccount (name : String)
  deriving Repr, DecidableEq

def Op.isEditAccount : Op → Bool
  | .editAccount _ _ _ => true
  | _ => false

/-- One request against the database; a failed `add_journal_entry` renders
its error message and leaves the state unchanged. -/
def applyOp (db : DB) (op : Op) : DB :=
  match op with
  | .addJE inp =>
      match add_journal_entry db inp with
      | .ok db2 => db2
      | .error _ => db
  | .approveGroup gid => approveGroupPost db gid
  | .rejectGroup gid => rejectGroupPost db gid
  | .addAccount a => add_account db a
  | .editAccount name side cat => edit_account db name side cat
  | .deactivateAccount name => deactivate_account db name
  | .activateAccount name => activate_account db name

/-- Run a sequence of requests. -/
def run (db : DB) (ops : List Op) : DB :=
  ops.foldl applyOp db

/-- Initial states: a chart of accounts built by `add_account`, no journal
entries yet. -/
def initState (specs : List Account) : DB :=
  specs.foldl add_account emptyDB

instance {ε α : Type} [DecidableEq ε] [DecidableEq α] :
    DecidableEq (Except ε α) := fun a b =>
  match a, b with
  | Except.ok x, Except.ok y =>
      if h : x = y then Decidable.isTrue (congrArg Except.ok h)
      else Decidable.isFalse fun hh => h (Except.ok.inj hh)
  | Except.error x, Except.error y =>
      if h : x = y then Decidable.isTrue (congrArg Except.error h)
      else Decidable.isFalse fun hh => h (Except.error.inj hh)
  | Except.ok _, Except.error _ =>
      Decidable.isFalse fun hh => Except.noConfusion hh
  | Except.error _, Except.ok _ =>
      Decidable.isFalse fun hh => Except.noConfusion hh

/-- Floor of a rational (the denominator of a `Rat` is positive, so
flooring integer division of the numerator by the denominator is the
floor). -/
def ratFloor (x : ℚ) : ℤ := Int.fdiv x.num x.den

/-- Round a rational to the nearest integer, ties to even: the rounding of
Python `Decimal` (ROUND_HALF_EVEN), used by `round(x, 2)` on decimals. -/
def roundHalfEven (x : ℚ) : ℤ :=
  let f := ratFloor x
  let frac := x - f
  if frac < 1/2 then f
  else if 1/2 < frac then f + 1
  else if f % 2 = 0 then f else f + 1

/-- `round(x, 2)` on a `Decimal`. -/
def round2 (x : ℚ) : ℚ := (roundHalfEven (x * 100) : ℚ) / 100

/-- Python `Decimal` division: raises `ZeroDivisionError` on a zero divisor
(the quotient itself is modelled exactly). -/
def qdiv (a b : ℚ) : Except String ℚ :=
  if b = 0 then Except.error ("ZeroDivisionError") else Except.ok (a / b)

/-- The accumulator variables of `calculate_ratios`
(views.py lines 1244-1261), all initialised to 0. -/
structure RatioVars where
  current_assets : ℚ := 0
  current_liabilities : ℚ := 0
  cash : ℚ := 0
  operating_cash_flow : ℚ := 0
  total_liabilities : ℚ := 0
  total_assets : ℚ := 0
  shareholder_equity : ℚ := 0
  operating_income : ℚ := 0
  interest_expenses : ℚ := 0
  total_debt_service : ℚ := 0
  net_sales : ℚ := 0
  cost_of_goods_sold : ℚ := 0
  gross_profit : ℚ := 0
  net_income : ℚ := 0
  inventory : ℚ := 0
  net_credit_sales : ℚ := 0
  average_accounts_receivable : ℚ := 0
  deriving Repr, DecidableEq

/-- The per-account assignment chain of `calculate_ratios`
(views.py lines 1264-1292), in source order: the special account names are
tested before the category buckets, so an account named, say, "Cash" never
also counts into the Assets bucket. -/
def ratioScan (v : RatioVars) (a : Account) : RatioVars :=
  if a.account_name = "Cash" then { v with cash := round2 a.balance }
  else if a.account_name = "Operating Cash" then
    { v with operating_cash_flow := round2 a.balance }
  else if a.account_name = "Total Debt Service" then
    { v with total_debt_service := round2 a.balance }
  else if a.account_name = "Operating Income" then
    { v with operating_income := round2 a.balance }
  else if a.account_name = "Interest Expense" then
    { v with interest_expenses := round2 a.balance }
  else if a.account_name = "Net Sales" then
    { v with net_sales := round2 a.balance }
  else if a.account_name = "Cost of Goods Sold" then
    { v with cost_of_goods_sold := round2 a.balance }
  else if a.account_name = "Gross Profit" then
    { v with gross_profit := round2 a.balance }
  else if a.account_name = "Net Income" then
    { v with net_income := round2 a.balance }
  else if a.account_name = "Inventory" then
    { v with inventory := round2 a.balance }
  else if a.account_category = "Assets" then
    { v with current_assets := v.current_assets + round2 a.balance,
             total_assets := v.total_assets + round2 a.balance }
  else if a.account_category = "Liabilities" then
    { v with current_liabilities := v.current_liabilities + round2 a.balance,
             total_liabilities := v.total_liabilities + round2 a.balance }
  else if a.account_category = "Equity" then
    { v with shareholder_equity := v.shareholder_equity + round2 a.balance }
  else v

def GREEN : String := "#28a745"
def YELLOW : String := "#ffc107"
def RED : String := "#dc3545"

/-- `calculate_ratios` (views.py lines 1222-1473) over the chart of
accounts: the ratio dictionary as an insertion-ordered list of
(name, value, color) triples, or the uncaught division error. -/
def calculate_ratios (accounts : List Account) :
    Except String (List (String × ℚ × String)) := do
  let v := accounts.foldl ratioScan {}
  let liquidity ←
    if v.current_liabilities ≠ 0 then do
      let current_ratio := round2 (← qdiv v.current_assets v.current_liabilities)
      let acid_test_ratio :=
        round2 (← qdiv (v.current_assets - v.inventory) v.current_liabilities)
      let cash_ratio := round2 (← qdiv v.cash v.current_liabilities)
      let operating_cash_flow_ratio :=
        round2 (← qdiv v.operating_cash_flow v.current_liabilities)
      pure [("current_ratio", current_ratio,
              if current_ratio ≥ 1.5 then GREEN
              else if current_ratio ≥ 1 then YELLOW else RED),
            ("acid_test_ratio", acid_test_ratio,
              if acid_test_ratio ≥ 1 then GREEN
              else if acid_test_ratio ≥ 0.5 then YELLOW else RED),
            ("cash_ratio", cash_ratio,
              if cash_ratio ≥ 0.5 then GREEN
              else if cash_ratio ≥ 0.2 then YELLOW else RED),
            ("operating_cash_flow_ratio", operating_cash_flow_ratio,
              if operating_cash_flow_ratio ≥ 1 then GREEN
              else if operating_cash_flow_ratio ≥ 0.5 then YELLOW else RED)]
    else pure []
  let leverage ←
    if v.total_assets ≠ 0 ∧ v.total_liabilities ≠ 0 then do
      let debt_ratio := round2 (← qdiv v.total_liabilities v.total_assets)
      let debt_to_equity_ratio :=
        round2 (← qdiv v.total_liabilities v.shareholder_equity)
      let interest_coverage_ratio ←
        if v.interest_expenses ≠ 0 then
          do pure (round2 (← qdiv v.operating_income v.interest_expenses))
        else pure 0
      let debt_service_coverage_ratio ←
        if v.total_debt_service ≠ 0 then
          do pure (round2 (← qdiv v.operating_income v.total_debt_service))
        else pure 0
      pure [("debt_ratio", debt_ratio,
              if debt_ratio ≤ 0.5 then GREEN
              else if debt_ratio ≤ 0.6 then YELLOW else RED),
            ("debt_to_equity_ratio", debt_to_equity_ratio,
              if debt_to_equity_ratio ≤ 0.7 then GREEN
              else if debt_to_equity_ratio ≤ 1 then YELLOW else RED),
            ("interest_coverage_ratio", interest_coverage_ratio,
              if interest_coverage_ratio ≥ 3 then GREEN
              else if interest_coverage_ratio ≥ 1.5 then YELLOW else RED),
            ("debt_service_coverage_ratio", debt_service_coverage_ratio,
              if debt_service_coverage_ratio ≥ 1 then GREEN
              else if debt_service_coverage_ratio ≥ 0.5 then YELLOW else RED)]
    else pure []
  let efficiency ←
    if v.total_assets ≠ 0 then do
      let asset_turnover_ratio := round2 (← qdiv v.net_sales v.total_assets)
      let inventory_turnover_ratio ←
        if v.inventory ≠ 0 then
          do pure (round2 (← qdiv v.cost_of_goods_sold v.inventory))
        else pure 0
      let days_sales_in_inventory_ratio ←
        if inventory_turnover_ratio ≠ 0 then
          do pure (round2 (← qdiv 365 inventory_turnover_ratio))
        else pure 0
      pure [("asset_turnover_ratio", asset_turnover_ratio,
              if asset_turnover_ratio ≥ 1 then GREEN
              else if asset_turnover_ratio ≥ 0.5 then YELLOW else RED),
            ("inventory_turnover_ratio", inventory_turnover_ratio,
              if inventory_turnover_ratio ≥ 6 then GREEN
              else if inventory_turnover_ratio ≥ 3 then YELLOW else RED),
            ("days_sales_in_inventory_ratio", days_sales_in_inventory_ratio,
              if days_sales_in_inventory_ratio ≤ 60 then GREEN
              else if days_sales_in_inventory_ratio ≤ 120 then YELLOW else RED)]
    else pure []
  let receivables ←
    if v.shareholder_equity ≠ 0 then do
      let receivables_turnover_ratio ←
        if v.average_accounts_receivable ≠ 0 then
          do pure (round2 (← qdiv v.net_credit_sales v.average_accounts_receivable))
        else pure 0
      pure [("receivables_turnover_ratio", receivables_turnover_ratio,
              if receivables_turnover_ratio ≥ 10 then GREEN
              else if receivables_turnover_ratio ≥ 7 then YELLOW else RED)]
    else pure []
  let profitability ←
    if v.net_sales ≠ 0 then do
      let gross_margin_ratio := round2 (← qdiv v.gross_profit v.net_sales)
      let operating_margin_ratio := round2 (← qdiv v.operating_income v.net_sales)
      pure [("gross_margin_ratio", gross_margin_ratio,
              if gross_margin_ratio ≥ 0.4 then GREEN
              else if gross_margin_ratio ≥ 0.2 then YELLOW else RED),
            ("operating_margin_ratio", operating_margin_ratio,
              if operating_margin_ratio ≥ 0.15 then GREEN
              else if operating_margin_ratio ≥ 0.05 then YELLOW else RED)]
    else pure []
  let roa ←
    if v.total_assets ≠ 0 then do
      let return_on_assets_ratio := round2 (← qdiv v.net_income v.total_assets)
      pure [("return_on_assets_ratio", return_on_assets_ratio,
              if return_on_assets_ratio ≥ 0.03 then GREEN
              else if return_on_assets_ratio ≥ 0.01 then YELLOW else RED)]
    else pure []
  let roe ←
    if v.shareholder_equity ≠ 0 then do
      let return_on_equity_ratio :=
        round2 (← qdiv v.net_income v.shareholder_equity)
      pure [("return_on_equity_ratio", return_on_equity_ratio,
              if return_on_equity_ratio ≥ 0.1 then GREEN
              else if return_on_equity_ratio ≥ 0.05 then YELLOW else RED)]
    else pure []
  pure (liquidity ++ leverage ++ efficiency ++ receivables
        ++ profitability ++ roa ++ roe)

/-- The date filtering shared by the report views (for example views.py
lines 826-835): both bounds, one bound, or no filtering. -/
def dateFilter (s e : Option Int) (l : List Entry) : List Entry :=
  match s, e with
  | some s, some e => l.filter fun x => decide (s ≤ x.date) && decide (x.date ≤ e)
  | some s, none => l.filter fun x => decide (s ≤ x.date)
  | none, some e => l.filter fun x => decide (x.date ≤ e)
  | none, none => l

/-- One step of the `values("account__account_name").annotate(Sum, Sum)`
grouping: accumulate the entry into its account bucket, buckets in first
occurrence order. -/
def addToGroups (gs : List (String × ℚ × ℚ)) (e : Entry) :
    List (String × ℚ × ℚ) :=
  if gs.any fun g => g.1 = e.accountName then
    gs.map fun g =>
      if g.1 = e.accountName then (g.1, g.2.1 + e.debit, g.2.2 + e.credit) else g
  else gs ++ [(e.accountName, e.debit, e.credit)]

/-- Per-account (name, total debit, total credit) rows of the grouped
queryset. -/
def groupTotals (l : List Entry) : List (String × ℚ × ℚ) :=
  l.foldl addToGroups []

/-- `trial_balance` report data (views.py lines 808-851): the per-account
rows and the grand totals of debit and credit. -/
def trial_balance (entries : List Entry) (s e : Option Int) :
    List (String × ℚ × ℚ) × ℚ × ℚ :=
  let accounts := groupTotals (dateFilter s e entries)
  (accounts,
   (accounts.map fun g => g.2.1).sum,
   (accounts.map fun g => g.2.2).sum)

def revenue_account_names : List String := ["Unearned Revenue"]
def expense_account_names : List String := ["Accrued Expense", "Prepaid Expenses"]

/-- `income_statement` report data (views.py lines 877-956): revenue rows,
expense rows, total revenue, total expenses, net income. -/
def income_statement (entries : List Entry) (s e : Option Int) :
    List (String × ℚ × ℚ) × List (String × ℚ × ℚ) × ℚ × ℚ × ℚ :=
  let accounts := groupTotals (dateFilter s e entries)
  let revenue_accounts := accounts.filter fun g => revenue_account_names.contains g.1
  let expense_accounts := accounts.filter fun g => expense_account_names.contains g.1
  let total_revenue := (revenue_accounts.map fun g => g.2.2 - g.2.1).sum
  let total_expenses := (expense_accounts.map fun g => g.2.1 - g.2.2).sum
  (revenue_accounts, expense_accounts, total_revenue, total_expenses,
   total_revenue - total_expenses)

/-- Account category of an entry through the foreign key, as used by the
`account__account_category__in` filters. -/
def entryCategory (accounts : List Account) (x : Entry) : Option String :=
  (accounts.find? fun a => a.account_name = x.accountName).map
    fun a => a.account_category

/-- `balance_sheet` report data (views.py lines 982-1050): total assets,
total liabilities, total equity, and total liabilities and equity. -/
def balance_sheet (accounts : List Account) (entries : List Entry)
    (s e : Option Int) : ℚ × ℚ × ℚ × ℚ :=
  let je := dateFilter s e entries
  let asset_entries := je.filter fun x => entryCategory accounts x = some "Assets"
  let liability_entries :=
    je.filter fun x => entryCategory accounts x = some "Liabilities"
  let equity_entries := je.filter fun x => entryCategory accounts x = some "Equity"
  let total_assets := (asset_entries.map fun x => x.debit - x.credit).sum
  let total_liabilities := (liability_entries.map fun x => x.credit - x.debit).sum
  let total_equity := (equity_entries.map fun x => x.credit - x.debit).sum
  (total_assets, total_liabilities, total_equity,
   total_liabilities + total_equity)

def re_revenue_accounts : List String := ["Interest Revenue", "Service Revenue"]
def re_expense_accounts : List String :=
  ["Supplies Expense", "Salaries Expense", "Utilities Expense"]
def re_dividends_account : List String := ["Dividends"]

/-- `retained_earnings` report data (views.py lines 1078-1144): net income,
total dividends, retained earnings. -/
def retained_earnings (entries : List Entry) (s e : Option Int) : ℚ × ℚ × ℚ :=
  let je := dateFilter s e entries
  let revenue_entries := je.filter fun x => re_revenue_accounts.contains x.accountName
  let expense_entries := je.filter fun x => re_expense_accounts.contains x.accountName
  let dividends_entries :=
    je.filter fun x => re_dividends_account.contains x.accountName
  let total_revenue := (revenue_entries.map fun x => x.credit).sum
  let total_expenses := (expense_entries.map fun x => x.debit).sum
  let total_dividends := (dividends_entries.map fun x => x.debit).sum
  let net_income := total_revenue - total_expenses
  (net_income, total_dividends, net_income - total_dividends)

/-- Failure injection points for the three database writes inside the
`transaction.atomic()` block of `JournalEntry.approve` (models.py lines
268-290): the status save, the account save, the general-ledger insert. -/
inductive FailPoint where
  | noFail
  | atStatusSave
  | atAccountSave
  | atLedgerInsert
  deriving Repr, DecidableEq

/-- The body of the `transaction.atomic()` block of `JournalEntry.approve`,
step by step, with an injected failure raising just before the chosen
write.  A missing owning account raises as well (the `self.account`
dereference). -/
def approveBody (fp : FailPoint) (db : DB) (eid : Nat) : Except Unit DB :=
  match findEntry db eid with
  | none => Except.ok db
  | some e =>
    if fp = FailPoint.atStatusSave then Except.error () else
    let db1 : DB :=
      { db with
        entries := updateWhere (fun x => x.id = eid)
                     (fun x => { x with status := EStatus.approved }) db.entries }
    match findAccount db1 e.accountName with
    | none => Except.error ()
    | some a =>
      if fp = FailPoint.atAccountSave then Except.error () else
      let a2 : Account :=
        { a with
          debit := a.debit + e.debit,
          credit := a.credit + e.credit,
          balance := a.initial_balance + (a.debit + e.debit)
                      - (a.credit + e.credit) }
      let db2 : DB :=
        { db1 with
          accounts := updateWhere (fun x => x.account_name = e.accountName)
                        (fun _ => a2) db1.accounts }
      if fp = FailPoint.atLedgerInsert then Except.error () else
      Except.ok
        { db2 with
          ledger := db2.ledger ++
            [{ accountName := e.accountName,
               entryId := some eid,
               date_of_journal_entry := e.date,
               description := "Approved Journal Entry: " ++ toString eid,
               debit := e.debit,
               credit := e.credit,
               balance := a2.balance }] }

/-- Semantics of `transaction.atomic()` (framework guarantee): an exception
inside the block rolls every write of the block back. -/
def atomicRun (act : Except Unit DB) (db : DB) : DB :=
  match act with
  | Except.ok d => d
  | Except.error _ => db

/-- `JournalEntry.approve` with an injected write failure: the pending
check, then the atomic block. -/
def approveWithFailure (fp : FailPoint) (db : DB) (eid : Nat) : DB :=
  match findEntry db eid with
  | none => db
  | some e =>
    if e.status = EStatus.pending then atomicRun (approveBody fp db eid) db
    else db

/-- Two journal entries created in the same `JournalEntryGroup`. -/
def sameGroup (e1 e2 : Entry) : Prop :=
  e1.group ≠ none ∧ e1.group = e2.group

instance (e1 e2 : Entry) : Decidable (sameGroup e1 e2) :=
  inferInstanceAs (Decidable (_ ∧ _))

/-- The pair of normal sides of the accounts owning two entries, when both
accounts exist. -/
def sidePair (db : DB) (e1 e2 : Entry) : Option (String × String) :=
  match findAccount db e1.accountName, findAccount db e2.accountName with
  | some a1, some a2 => some (a1.normal_side, a2.normal_side)
  | _, _ => none

/-- The two owning accounts have opposite normal sides (one Left, one
Right). -/
def oppositeSides (db : DB) (e1 e2 : Entry) : Prop :=
  sidePair db e1 e2 = some ("Left", "Right") ∨
    sidePair db e1 e2 = some ("Right", "Left")

instance (db : DB) (e1 e2 : Entry) : Decidable (oppositeSides db e1 e2) :=
  inferInstanceAs (Decidable (_ ∨ _))

/-- Claim C3 property: every approved journal entry pair (earlier entry
first) has matching totals and opposite normal sides. -/
def approvedPairsOk (db : DB) : Prop :=
  db.entries.Pairwise fun e1 e2 =>
    sameGroup e1 e2 → e1.status = EStatus.approved → e2.status = EStatus.approved →
      e1.debit = e2.credit ∧ oppositeSides db e1 e2

instance (db : DB) : Decidable (approvedPairsOk db) :=
  List.instDecidablePairwise _

/-- The totals half of the C3 property. -/
def approvedPairTotalsOk (db : DB) : Prop :=
  db.entries.Pairwise fun e1 e2 =>
    sameGroup e1 e2 → e1.status = EStatus.approved → e2.status = EStatus.approved →
      e1.debit = e2.credit

instance (db : DB) : Decidable (approvedPairTotalsOk db) :=
  List.instDecidablePairwise _

/-- Inductive invariant, totals part: entry pairs in one group have the
debit of the earlier entry equal to the credit of the later one, whatever
their statuses; and group ids of entries stay below the group counter, so
a fresh group is never joined by older entries. -/
def InvTotals (db : DB) : Prop :=
  (∀ e ∈ db.entries, ∀ g, e.group = some g → g < db.nextGroup) ∧
  db.entries.Pairwise fun e1 e2 => sameGroup e1 e2 → e1.debit = e2.credit

/-- Inductive invariant, sides part: entry pairs in one group resolve to a
normal-side-Left account for the earlier entry and a normal-side-Right
account for the later one. -/
def InvSides (db : DB) : Prop :=
  db.entries.Pairwise fun e1 e2 =>
    sameGroup e1 e2 → sidePair db e1 e2 = some ("Left", "Right")

/-- Rewrite the status of every entry (used to state that the reports never
read the status field). -/
def restatus (f : Entry → EStatus) (l : List Entry) : List Entry :=
  l.map fun x => { x with status := f x }

/-- The date-range condition of the report filters. -/
def dateInRange (s e : Option Int) (x : Entry) : Prop :=
  match s, e with
  | some s, some e => s ≤ x.date ∧ x.date ≤ e
  | some s, none => s ≤ x.date
  | none, some e => x.date ≤ e
  | none, none => True

/-- Example chart-of-accounts rows and requests used by the concrete
witnesses below. -/
def exCash : Account :=
  { account_name := "Cash", normal_side := "Left", account_category := "Assets",
    initial_balance := 10, debit := 0, credit := 0, balance := 0,
    is_active := true }

def exRevenue : Account :=
  { account_name := "Revenue", normal_side := "Right",
    account_category := "Revenue", initial_balance := 0, debit := 0,
    credit := 0, balance := 0, is_active := true }

def exInput : JEInput :=
  { account1 := "Cash", debit1 := some 100, date1 := 1,
    account2 := "Revenue", credit2 := some 100, date2 := 2 }

def exDB0 : DB := initState [exCash, exRevenue]

def exDB1 : DB := applyOp exDB0 (Op.addJE exInput)

def exDB2 : DB := applyOp exDB1 (Op.approveGroup 0)

theorem updateWhere_cons (p : α → Bool) (f : α → α) (x : α) (l : List α) :
    updateWhere p f (x :: l) =
      (if p x then f x else x) :: updateWhere p f l := rfl

theorem find?_updateWhere_self (p : α → Bool) (f : α → α)
    (h : ∀ x, p x = true → p (f x) = true) (l : List α) :
    List.find? p (updateWhere p f l) = (List.find? p l).map f := by
  induction l with
  | nil => rfl
  | cons x xs ih =>
    rw [updateWhere_cons]
    by_cases hx : p x = true
    · rw [if_pos hx, List.find?_cons_of_pos _ (h x hx),
        List.find?_cons_of_pos _ hx, Option.map_some']
    · rw [if_neg hx, List.find?_cons_of_neg _ hx,
        List.find?_cons_of_neg _ hx, ih]

theorem find?_updateWhere_untouched (p q : α → Bool) (f : α → α)
    (h : ∀ x, p x = true → q x = false ∧ q (f x) = false) (l : List α) :
    List.find? q (updateWhere p f l) = List.find? q l := by
  induction l with
  | nil => rfl
  | cons x xs ih =>
    rw [updateWhere_cons]
    by_cases hx : p x = true
    · rw [if_pos hx, List.find?_cons_of_neg _ (by simp [(h x hx).2]),
        List.find?_cons_of_neg _ (by simp [(h x hx).1]), ih]
    · rw [if_neg hx]
      by_cases hq : q x = true
      · rw [List.find?_cons_of_pos _ hq, List.find?_cons_of_pos _ hq]
      · rw [List.find?_cons_of_neg _ (by simpa using hq),
          List.find?_cons_of_neg _ (by simpa using hq), ih]

theorem find?_updateWhere_const (p : α → Bool) (a a2 : α)
    (l : List α) (hfind : List.find? p l = some a) (ha2 : p a2 = true) :
    List.find? p (updateWhere p (fun _ => a2) l) = some a2 := by
  rw [find?_updateWhere_self p (fun _ => a2) (fun _ _ => ha2) l, hfind,
    Option.map_some']

/-- Claim C8: saving a suspended user stores `is_suspended = true` exactly
when both suspension dates are set and today lies between them inclusive;
saving a non-suspended user clears both suspension dates. -/
theorem save_suspension_autolift (u : CustomUser) (today : Int) :
    (u.is_suspended = true →
      (((u.save today).is_suspended = true) ↔
        ∃ s e, u.suspension_start_date = some s ∧
          u.suspension_end_date = some e ∧ s ≤ today ∧ today ≤ e)) ∧
    (u.is_suspended = false →
      (u.save today).suspension_start_date = none ∧
      (u.save today).suspension_end_date = none) := by
  constructor
  · intro h
    cases hs : u.suspension_start_date with
    | none => simp [CustomUser.save, h, hs]
    | some s =>
      cases he : u.suspension_end_date with
      | none => simp [CustomUser.save, h, hs, he]
      | some e2 => simp [CustomUser.save, h, hs, he, decide_eq_true_eq]
  · intro h
    simp [CustomUser.save, h]

/-- Witness for C8 at a concrete user and date. -/
theorem save_suspension_autolift_witness :
    ((⟨"u", "p", true, true, 0, some 0, some 10⟩ : CustomUser).save 5).is_suspended
        = true ∧
    ((⟨"u", "p", true, false, 0, some 0, some 10⟩ :
        CustomUser).save 5).suspension_start_date = none := by
  constructor
  · exact ((save_suspension_autolift ⟨"u", "p", true, true, 0, some 0, some 10⟩
      5).1 rfl).mpr ⟨0, 10, rfl, rfl, by decide, by decide⟩
  · exact ((save_suspension_autolift ⟨"u", "p", true, false, 0, some 0, some 10⟩
      5).2 rfl).1

/-- Claim C7 (code bug): on the failed attempt that brings the counter to 5
the view sets the suspension flag and resets the counter, but the stored
user is NOT suspended, because `CustomUser.save` clears the flag when the
suspension dates are unset; the flash message still announces a suspension.
The second and third conjuncts record the per-attempt increment and the
reset on successful login, which do hold. -/
theorem login_fifth_failure_not_stored_suspended :
    login_user [⟨"amy", "pw", true, false, 4, none, none⟩] "amy" "bad" 0 =
      ([⟨"amy", "pw", true, false, 0, none, none⟩],
        LoginMsg.suspendedTooManyAttempts) ∧
    login_user [⟨"amy", "pw", true, false, 2, none, none⟩] "amy" "bad" 0 =
      ([⟨"amy", "pw", true, false, 3, none, none⟩],
        LoginMsg.invalidCredentials) ∧
    login_user [⟨"amy", "pw", true, false, 3, none, none⟩] "amy" "pw" 0 =
      ([⟨"amy", "pw", true, false, 0, none, none⟩], LoginMsg.success) := by
  decide

unseal Rat.add Rat.sub Rat.mul Rat.inv Rat.ofScientific in
/-- Claim C9 (code bug): on a chart of accounts with a non-zero Assets
total and a non-zero Liabilities total but no Equity, the guard of the
leverage block passes and `total_liabilities / shareholder_equity` divides
by zero, so `calculate_ratios` raises instead of returning the ratio
dictionary. -/
theorem calculate_ratios_zero_division :
    calculate_ratios
      [{ account_name := "Checking", normal_side := "Left",
         account_category := "Assets", initial_balance := 0, debit := 0,
         credit := 0, balance := 100, is_active := true },
       { account_name := "Loans", normal_side := "Right",
         account_category := "Liabilities", initial_balance := 0, debit := 0,
         credit := 0, balance := 50, is_active := true }] =
      Except.error ("ZeroDivisionError") := by
  decide

theorem findAccount_name (db : DB) (n : String) (a : Account)
    (h : findAccount db n = some a) : a.account_name = n := by
  have := List.find?_some h
  simpa using this

theorem approve_of_not_pending (db : DB) (eid : Nat) (e : Entry)
    (he : findEntry db eid = some e) (hnp : ¬ e.status = EStatus.pending) :
    JournalEntry.approve db eid = db := by
  unfold JournalEntry.approve
  rw [he]
  simp [hnp]

theorem approve_pending_form (db : DB) (eid : Nat) (e : Entry) (a : Account)
    (he : findEntry db eid = some e) (hp : e.status = EStatus.pending)
    (ha : findAccount db e.accountName = some a) :
    JournalEntry.approve db eid =
      { db with
        entries := updateWhere (fun x => x.id = eid)
                     (fun x => { x with status := EStatus.approved }) db.entries,
        accounts := updateWhere (fun x => x.account_name = e.accountName)
                      (fun _ =>
                        { a with
                          debit := a.debit + e.debit,
                          credit := a.credit + e.credit,
                          balance := a.initial_balance + (a.debit + e.debit)
                                      - (a.credit + e.credit) }) db.accounts,
        ledger := db.ledger ++
          [{ accountName := e.accountName, entryId := some eid,
             date_of_journal_entry := e.date,
             description := "Approved Journal Entry: " ++ toString eid,
             debit := e.debit, credit := e.credit,
             balance := a.initial_balance + (a.debit + e.debit)
                         - (a.credit + e.credit) }] } := by
  unfold JournalEntry.approve
  simp [he, hp, ha]

theorem approve_account_after (db : DB) (eid : Nat) (e : Entry) (a : Account)
    (he : findEntry db eid = some e) (hp : e.status = EStatus.pending)
    (ha : findAccount db e.accountName = some a) :
    findAccount (JournalEntry.approve db eid) e.accountName =
      some { a with
             debit := a.debit + e.debit,
             credit := a.credit + e.credit,
             balance := a.initial_balance + (a.debit + e.debit)
                         - (a.credit + e.credit) } := by
  have hname : a.account_name = e.accountName := findAccount_name db _ a ha
  rw [approve_pending_form db eid e a he hp ha]
  show List.find? _ (updateWhere _ _ db.accounts) = _
  exact find?_updateWhere_const _ a _ db.accounts ha (by simp [hname])

/-- Claim C1: approving a pending entry stores it as Approved, adds the
entry debit and credit to the owning account and sets its balance to
initial balance plus debit minus credit over the updated totals; a second
approve of the same entry, and an approve of any non-pending entry, change
nothing. -/
theorem approve_pending_effects (db : DB) (eid : Nat) (e : Entry) (a : Account)
    (he : findEntry db eid = some e) (hp : e.status = EStatus.pending)
    (ha : findAccount db e.accountName = some a) :
    findEntry (JournalEntry.approve db eid) eid =
        some { e with status := EStatus.approved } ∧
    findAccount (JournalEntry.approve db eid) e.accountName =
        some { a with
               debit := a.debit + e.debit,
               credit := a.credit + e.credit,
               balance := a.initial_balance + (a.debit + e.debit)
                           - (a.credit + e.credit) } ∧
    JournalEntry.approve (JournalEntry.approve db eid) eid =
        JournalEntry.approve db eid ∧
    (∀ (db2 : DB) (e2 : Entry), findEntry db2 eid = some e2 →
        e2.status ≠ EStatus.pending →
        JournalEntry.approve db2 eid = db2) := by
  have hname : a.account_name = e.accountName := findAccount_name db _ a ha
  have hform := approve_pending_form db eid e a he hp ha
  have h1 : findEntry (JournalEntry.approve db eid) eid =
      some { e with status := EStatus.approved } := by
    rw [hform]
    show List.find? _ (updateWhere _ _ db.entries) = _
    rw [find?_updateWhere_self _ _ (fun x hx => by simpa using hx) db.entries]
    rw [show List.find? (fun x => x.id = eid) db.entries = some e from he]
    rfl
  refine ⟨h1, ?_, ?_, ?_⟩
  · exact approve_account_after db eid e a he hp ha
  · exact approve_of_not_pending _ eid _ h1 (by simp)
  · exact fun db2 e2 he2 hnp2 => approve_of_not_pending db2 eid e2 he2 hnp2

/-- Witness for C1: approving entry 0 of the example database. -/
theorem approve_pending_effects_witness :
    findEntry (JournalEntry.approve exDB1 0) 0 =
      some { id := 0, date := 1, accountName := "Cash", debit := 100,
             credit := 0, status := EStatus.approved, group := some 0 } :=
  (approve_pending_effects exDB1 0
    ⟨0, 1, "Cash", 100, 0, EStatus.pending, some 0⟩ exCash
    (by decide) (by decide) (by decide)).1

unseal Rat.add Rat.sub in
/-- Counterexample to claim C2 as stated: in the reachable example state,
entry 0 is Approved, and the reject action on its group changes its status
to Rejected. -/
theorem approved_status_changed_by_reject :
    (findEntry exDB2 0).map Entry.status = some EStatus.approved ∧
    (findEntry (rejectGroupPost exDB2 0) 0).map Entry.status =
      some EStatus.rejected := by
  decide

/-- Claim C2 as amended: `JournalEntry.approve` never changes an entry that
is already Approved, but the reject branch of `journal_entry_page` sets the
status of every entry of the target group to Rejected regardless of its
current status, Approved included. -/
theorem approve_irreversible_but_reject_overwrites (db : DB) (gid eid : Nat)
    (e : Entry) :
    (findEntry db eid = some e → e.status = EStatus.approved →
      JournalEntry.approve db eid = db) ∧
    (e ∈ db.entries → e.group = some gid →
      { e with status := EStatus.rejected } ∈ (rejectGroupPost db gid).entries) := by
  constructor
  · intro he hap
    exact approve_of_not_pending db eid e he (by rw [hap]; simp)
  · intro hmem hgrp
    show _ ∈ updateWhere _ _ db.entries
    have : ({ e with status := EStatus.rejected } : Entry) =
        (fun x : Entry => if (x.group = some gid : Bool) then
          { x with status := EStatus.rejected } else x) e := by
      simp [hgrp]
    rw [this]
    exact List.mem_map_of_mem _ hmem

unseal Rat.add Rat.sub in
/-- Witness for the amended C2 at the example state. -/
theorem approve_irreversible_but_reject_overwrites_witness :
    JournalEntry.approve exDB2 0 = exDB2 ∧
    ({ id := 0, date := 1, accountName := "Cash", debit := 100, credit := 0,
       status := EStatus.rejected, group := some 0 } : Entry) ∈
      (rejectGroupPost exDB2 0).entries := by
  constructor
  · exact (approve_irreversible_but_reject_overwrites exDB2 0 0
      ⟨0, 1, "Cash", 100, 0, EStatus.approved, some 0⟩).1 (by decide) rfl
  · exact (approve_irreversible_but_reject_overwrites exDB2 0 0
      ⟨0, 1, "Cash", 100, 0, EStatus.approved, some 0⟩).2 (by decide) rfl

theorem findAccount_with_entries (db : DB) (E : List Entry) (n : String) :
    findAccount { db with entries := E } n = findAccount db n := rfl

/-- Claim C4: with a pending entry, `approve` with no injected failure
performs the full update, and a failure at any of the three writes inside
the atomic block leaves the database exactly as it was; in every case the
result is all three effects or none. -/
theorem approve_transaction_atomic (fp : FailPoint) (db : DB) (eid : Nat)
    (e : Entry) (he : findEntry db eid = some e)
    (hp : e.status = EStatus.pending) :
    (approveWithFailure FailPoint.noFail db eid = JournalEntry.approve db eid) ∧
    (fp ≠ FailPoint.noFail → approveWithFailure fp db eid = db) ∧
    (approveWithFailure fp db eid = db ∨
      approveWithFailure fp db eid = JournalEntry.approve db eid) := by
  have key : ∀ f : FailPoint,
      approveWithFailure f db eid =
        if f = FailPoint.noFail then JournalEntry.approve db eid else db := by
    intro f
    unfold approveWithFailure approveBody atomicRun JournalEntry.approve
    simp only [he, hp, findAccount_with_entries]
    cases hacc : findAccount db e.accountName with
    | none => cases f <;> simp
    | some a => cases f <;> simp
  refine ⟨?_, ?_, ?_⟩
  · rw [key]; simp
  · intro h; rw [key]; simp [h]
  · rw [key]
    by_cases h : fp = FailPoint.noFail
    · right; simp [h]
    · left; simp [h]

/-- Witness for C4: a failure at the account save leaves the example state
unchanged; no failure gives the approve result. -/
theorem approve_transaction_atomic_witness :
    approveWithFailure FailPoint.atAccountSave exDB1 0 = exDB1 ∧
    approveWithFailure FailPoint.noFail exDB1 0 =
      JournalEntry.approve exDB1 0 := by
  constructor
  · exact (approve_transaction_atomic FailPoint.atAccountSave exDB1 0
      ⟨0, 1, "Cash", 100, 0, EStatus.pending, some 0⟩ (by decide) rfl).2.1
      (by decide)
  · exact (approve_transaction_atomic FailPoint.noFail exDB1 0
      ⟨0, 1, "Cash", 100, 0, EStatus.pending, some 0⟩ (by decide) rfl).1

theorem add_journal_entry_ok_inv (db db2 : DB) (inp : JEInput)
    (h : add_journal_entry db inp = Except.ok db2) :
    ∃ d a1 a2, inp.debit1 = some d ∧ inp.credit2 = some d ∧ 0 < d ∧
      findAccount db inp.account1 = some a1 ∧
      findAccount db inp.account2 = some a2 ∧
      a1.normal_side = "Left" ∧ a2.normal_side = "Right" ∧
      db2 = { db with
              groups := db.groups ++ [db.nextGroup],
              nextGroup := db.nextGroup + 1,
              entries := db.entries ++
                [{ id := db.nextEntry, date := inp.date1,
                   accountName := inp.account1, debit := d, credit := 0,
                   status := EStatus.pending, group := some db.nextGroup },
                 { id := db.nextEntry + 1, date := inp.date2,
                   accountName := inp.account2, debit := 0, credit := d,
                   status := EStatus.pending, group := some db.nextGroup }],
              nextEntry := db.nextEntry + 2 } := by
  unfold add_journal_entry at h
  cases hd : inp.debit1 with
  | none => simp only [hd] at h; exact absurd h (by simp)
  | some d =>
    cases hc : inp.credit2 with
    | none => simp only [hd, hc] at h; exact absurd h (by simp)
    | some c =>
      simp only [hd, hc] at h
      by_cases h1 : d ≤ 0 ∨ c ≤ 0
      · rw [if_pos h1] at h; exact absurd h (by simp)
      · rw [if_neg h1] at h
        by_cases h2 : d ≠ c
        · rw [if_pos h2] at h; exact absurd h (by simp)
        · rw [if_neg h2] at h
          cases hA1 : findAccount db inp.account1 with
          | none => simp only [hA1] at h; exact absurd h (by simp)
          | some a1 =>
            cases hA2 : findAccount db inp.account2 with
            | none => simp only [hA1, hA2] at h; exact absurd h (by simp)
            | some a2 =>
              simp only [hA1, hA2] at h
              by_cases hL : a1.normal_side ≠ "Left"
              · rw [if_pos hL] at h; exact absurd h (by simp)
              · rw [if_neg hL] at h
                by_cases hR : a2.normal_side ≠ "Right"
                · rw [if_pos hR] at h; exact absurd h (by simp)
                · rw [if_neg hR] at h
                  have heq : d = c := not_ne_iff.mp h2
                  subst heq
                  push_neg at h1
                  simp only [Except.ok.injEq] at h
                  exact ⟨d, a1, a2, rfl, rfl, h1.1, rfl, rfl,
                    not_ne_iff.mp hL, not_ne_iff.mp hR, h.symm⟩

theorem add_journal_entry_ok (db : DB) (inp : JEInput) (d : ℚ) (a1 a2 : Account)
    (hd : inp.debit1 = some d) (hc : inp.credit2 = some d) (hpos : 0 < d)
    (h1 : findAccount db inp.account1 = some a1)
    (h2 : findAccount db inp.account2 = some a2)
    (hL : a1.normal_side = "Left") (hR : a2.normal_side = "Right") :
    add_journal_entry db inp =
      Except.ok
        { db with
          groups := db.groups ++ [db.nextGroup],
          nextGroup := db.nextGroup + 1,
          entries := db.entries ++
            [{ id := db.nextEntry, date := inp.date1,
               accountName := inp.account1, debit := d, credit := 0,
               status := EStatus.pending, group := some db.nextGroup },
             { id := db.nextEntry + 1, date := inp.date2,
               accountName := inp.account2, debit := 0, credit := d,
               status := EStatus.pending, group := some db.nextGroup }],
          nextEntry := db.nextEntry + 2 } := by
  unfold add_journal_entry
  simp only [hd, hc]
  rw [if_neg (not_or.mpr ⟨not_le.mpr hpos, not_le.mpr hpos⟩)]
  rw [if_neg (not_ne_iff.mpr rfl)]
  simp only [h1, h2]
  rw [if_neg (not_ne_iff.mpr hL), if_neg (not_ne_iff.mpr hR)]

/-- Claim C6: `add_journal_entry` succeeds exactly when the validation
chain passes (debit and credit present, positive, equal, both accounts
exist, account 1 normal side Left, account 2 normal side Right), in which
case it creates exactly one group and the two pending entries; in every
failing case it reports an error message and leaves the database
unchanged. -/
theorem add_journal_entry_validation (db : DB) (inp : JEInput) :
    (∀ d a1 a2, inp.debit1 = some d → inp.credit2 = some d → 0 < d →
        findAccount db inp.account1 = some a1 →
        findAccount db inp.account2 = some a2 →
        a1.normal_side = "Left" → a2.normal_side = "Right" →
        add_journal_entry db inp =
          Except.ok
            { db with
              groups := db.groups ++ [db.nextGroup],
              nextGroup := db.nextGroup + 1,
              entries := db.entries ++
                [{ id := db.nextEntry, date := inp.date1,
                   accountName := inp.account1, debit := d, credit := 0,
                   status := EStatus.pending, group := some db.nextGroup },
                 { id := db.nextEntry + 1, date := inp.date2,
                   accountName := inp.account2, debit := 0, credit := d,
                   status := EStatus.pending, group := some db.nextGroup }],
              nextEntry := db.nextEntry + 2 }) ∧
    (∀ db2, add_journal_entry db inp = Except.ok db2 →
        ∃ d a1 a2, inp.debit1 = some d ∧ inp.credit2 = some d ∧ 0 < d ∧
          findAccount db inp.account1 = some a1 ∧
          findAccount db inp.account2 = some a2 ∧
          a1.normal_side = "Left" ∧ a2.normal_side = "Right" ∧
          db2 = { db with
                  groups := db.groups ++ [db.nextGroup],
                  nextGroup := db.nextGroup + 1,
                  entries := db.entries ++
                    [{ id := db.nextEntry, date := inp.date1,
                       accountName := inp.account1, debit := d, credit := 0,
                       status := EStatus.pending, group := some db.nextGroup },
                     { id := db.nextEntry + 1, date := inp.date2,
                       accountName := inp.account2, debit := 0, credit := d,
                       status := EStatus.pending, group := some db.nextGroup }],
                  nextEntry := db.nextEntry + 2 }) ∧
    (∀ msg, add_journal_entry db inp = Except.error msg →
        applyOp db (Op.addJE inp) = db) ∧
    ((∃ db2, add_journal_entry db inp = Except.ok db2) ∨
      (∃ msg, add_journal_entry db inp = Except.error msg)) := by
  refine ⟨?_, ?_, ?_, ?_⟩
  · intro d a1 a2 hd hc hpos h1 h2 hL hR
    exact add_journal_entry_ok db inp d a1 a2 hd hc hpos h1 h2 hL hR
  · intro db2 h
    exact add_journal_entry_ok_inv db db2 inp h
  · intro msg h
    simp [applyOp, h]
  · cases hres : add_journal_entry db inp with
    | ok db2 => exact Or.inl ⟨db2, rfl⟩
    | error msg => exact Or.inr ⟨msg, rfl⟩

/-- Witness for C6: the example input creates the group and the two pending
entries; a zero debit is rejected with the database unchanged. -/
theorem add_journal_entry_validation_witness :
    add_journal_entry exDB0 exInput =
      Except.ok
        { exDB0 with
          groups := exDB0.groups ++ [exDB0.nextGroup],
          nextGroup := exDB0.nextGroup + 1,
          entries := exDB0.entries ++
            [{ id := exDB0.nextEntry, date := 1, accountName := "Cash",
               debit := 100, credit := 0, status := EStatus.pending,
               group := some exDB0.nextGroup },
             { id := exDB0.nextEntry + 1, date := 2, accountName := "Revenue",
               debit := 0, credit := 100, status := EStatus.pending,
               group := some exDB0.nextGroup }],
          nextEntry := exDB0.nextEntry + 2 } ∧
    applyOp exDB0 (Op.addJE { exInput with debit1 := some 0 }) = exDB0 := by
  constructor
  · exact (add_journal_entry_validation exDB0 exInput).1 100 exCash exRevenue
      rfl rfl (by decide) (by decide) (by decide) rfl rfl
  · exact (add_journal_entry_validation exDB0
      { exInput with debit1 := some 0 }).2.2.1
      ("Debit and credit values must be greater than 0.") (by decide)

theorem approve_of_no_entry (db : DB) (eid : Nat)
    (he : findEntry db eid = none) : JournalEntry.approve db eid = db := by
  unfold JournalEntry.approve
  rw [he]

theorem approve_of_no_account (db : DB) (eid : Nat) (e : Entry)
    (he : findEntry db eid = some e) (hp : e.status = EStatus.pending)
    (ha : findAccount db e.accountName = none) :
    JournalEntry.approve db eid = db := by
  unfold JournalEntry.approve
  simp [he, hp, ha]

theorem approve_ledger_extends (db : DB) (eid : Nat) :
    ∃ t, (JournalEntry.approve db eid).ledger = db.ledger ++ t := by
  cases hfe : findEntry db eid with
  | none => exact ⟨[], by rw [approve_of_no_entry db eid hfe, List.append_nil]⟩
  | some e =>
    by_cases hp : e.status = EStatus.pending
    · cases hacc : findAccount db e.accountName with
      | none =>
        exact ⟨[], by rw [approve_of_no_account db eid e hfe hp hacc,
          List.append_nil]⟩
      | some a =>
        exact ⟨[{ accountName := e.accountName, entryId := some eid,
                  date_of_journal_entry := e.date,
                  description := "Approved Journal Entry: " ++ toString eid,
                  debit := e.debit, credit := e.credit,
                  balance := a.initial_balance + (a.debit + e.debit)
                              - (a.credit + e.credit) }],
          by rw [approve_pending_form db eid e a hfe hp hacc]⟩
    · exact ⟨[], by rw [approve_of_not_pending db eid e hfe hp,
        List.append_nil]⟩

theorem foldl_approve_ledger_extends (l : List Entry) (db : DB) :
    ∃ t, (l.foldl (fun d x => JournalEntry.approve d x.id) db).ledger =
      db.ledger ++ t := by
  induction l generalizing db with
  | nil => exact ⟨[], by simp⟩
  | cons x xs ih =>
    obtain ⟨t1, h1⟩ := approve_ledger_extends db x.id
    obtain ⟨t2, h2⟩ := ih (JournalEntry.approve db x.id)
    exact ⟨t1 ++ t2, by
      rw [List.foldl_cons, h2, h1, List.append_assoc]⟩

/-- Claim C5: the general ledger is append-only (every operation leaves the
existing rows as a prefix), only the approve action appends rows, and one
approval of a pending entry appends exactly one row carrying the entry
debit and credit and the balance the owning account holds immediately
after the approval; approving a non-pending entry appends nothing. -/
theorem general_ledger_append_only :
    (∀ (db : DB) (op : Op), ∃ t, (applyOp db op).ledger = db.ledger ++ t) ∧
    (∀ (db : DB) (op : Op), (∀ gid, op ≠ Op.approveGroup gid) →
        (applyOp db op).ledger = db.ledger) ∧
    (∀ (db : DB) (eid : Nat) (e : Entry) (a : Account),
        findEntry db eid = some e → e.status = EStatus.pending →
        findAccount db e.accountName = some a →
        (JournalEntry.approve db eid).ledger = db.ledger ++
          [{ accountName := e.accountName, entryId := some eid,
             date_of_journal_entry := e.date,
             description := "Approved Journal Entry: " ++ toString eid,
             debit := e.debit, credit := e.credit,
             balance := a.initial_balance + (a.debit + e.debit)
                         - (a.credit + e.credit) }] ∧
        findAccount (JournalEntry.approve db eid) e.accountName =
          some { a with
                 debit := a.debit + e.debit,
                 credit := a.credit + e.credit,
                 balance := a.initial_balance + (a.debit + e.debit)
                             - (a.credit + e.credit) }) ∧
    (∀ (db : DB) (eid : Nat) (e : Entry), findEntry db eid = some e →
        e.status ≠ EStatus.pending →
        (JournalEntry.approve db eid).ledger = db.ledger) := by
  have hnonapp : ∀ (db : DB) (op : Op), (∀ gid, op ≠ Op.approveGroup gid) →
      (applyOp db op).ledger = db.ledger := by
    intro db op hop
    cases op with
    | addJE inp =>
      simp only [applyOp]
      cases hres : add_journal_entry db inp with
      | ok db2 =>
        obtain ⟨d, a1, a2, _, _, _, _, _, _, _, hdb2⟩ :=
          add_journal_entry_ok_inv db db2 inp hres
        simp [hdb2]
      | error msg => rfl
    | approveGroup gid => exact absurd rfl (hop gid)
    | rejectGroup gid => rfl
    | addAccount a =>
      simp only [applyOp]
      unfold add_account
      cases findAccount db a.account_name <;> rfl
    | editAccount name side cat => rfl
    | deactivateAccount name =>
      simp only [applyOp]
      unfold deactivate_account
      cases findAccount db name with
      | none => rfl
      | some a =>
        by_cases hb : a.balance > 0
        · simp [hb]
        · simp [hb]
    | activateAccount name => rfl
  refine ⟨?_, hnonapp, ?_, ?_⟩
  · intro db op
    cases op with
    | approveGroup gid => exact foldl_approve_ledger_extends _ db
    | addJE inp => exact ⟨[], by rw [hnonapp db _ (by simp), List.append_nil]⟩
    | rejectGroup gid => exact ⟨[], by rw [hnonapp db _ (by simp), List.append_nil]⟩
    | addAccount a => exact ⟨[], by rw [hnonapp db _ (by simp), List.append_nil]⟩
    | editAccount name side cat =>
      exact ⟨[], by rw [hnonapp db _ (by simp), List.append_nil]⟩
    | deactivateAccount name =>
      exact ⟨[], by rw [hnonapp db _ (by simp), List.append_nil]⟩
    | activateAccount name =>
      exact ⟨[], by rw [hnonapp db _ (by simp), List.append_nil]⟩
  · intro db eid e a he hp ha
    constructor
    · rw [approve_pending_form db eid e a he hp ha]
    · exact approve_account_after db eid e a he hp ha
  · intro db eid e he hnp
    rw [approve_of_not_pending db eid e he hnp]

/-- Witness for C5 at the example state: approving pending entry 0 appends
exactly its ledger row. -/
theorem general_ledger_append_only_witness :
    (JournalEntry.approve exDB1 0).ledger = exDB1.ledger ++
      [{ accountName := "Cash", entryId := some 0,
         date_of_journal_entry := 1,
         description := "Approved Journal Entry: 0",
         debit := 100, credit := 0,
         balance := (10 : ℚ) + ((0 : ℚ) + 100) - ((0 : ℚ) + 0) }] ∧
    (applyOp exDB1 (Op.rejectGroup 0)).ledger = exDB1.ledger := by
  constructor
  · exact (general_ledger_append_only.2.2.1 exDB1 0
      ⟨0, 1, "Cash", 100, 0, EStatus.pending, some 0⟩ exCash
      (by decide) rfl (by decide)).1
  · exact general_ledger_append_only.2.1 exDB1 (Op.rejectGroup 0) (by simp)

theorem restatus_dateFilter (f : Entry → EStatus) (s e : Option Int)
    (l : List Entry) :
    dateFilter s e (restatus f l) = restatus f (dateFilter s e l) := by
  cases s <;> cases e <;>
    simp only [dateFilter, restatus, List.filter_map] <;> rfl

theorem restatus_groupTotals (f : Entry → EStatus) (l : List Entry) :
    groupTotals (restatus f l) = groupTotals l := by
  unfold groupTotals restatus
  rw [List.foldl_map]
  rfl

theorem restatus_trial_balance (f : Entry → EStatus) (l : List Entry)
    (s e : Option Int) :
    trial_balance (restatus f l) s e = trial_balance l s e := by
  unfold trial_balance
  rw [restatus_dateFilter, restatus_groupTotals]

theorem restatus_income_statement (f : Entry → EStatus) (l : List Entry)
    (s e : Option Int) :
    income_statement (restatus f l) s e = income_statement l s e := by
  unfold income_statement
  rw [restatus_dateFilter, restatus_groupTotals]

theorem restatus_balance_sheet (accounts : List Account) (f : Entry → EStatus)
    (l : List Entry) (s e : Option Int) :
    balance_sheet accounts (restatus f l) s e =
      balance_sheet accounts l s e := by
  unfold balance_sheet
  rw [restatus_dateFilter]
  generalize dateFilter s e l = je
  simp only [restatus, List.filter_map, List.map_map]
  rfl

theorem restatus_retained_earnings (f : Entry → EStatus) (l : List Entry)
    (s e : Option Int) :
    retained_earnings (restatus f l) s e = retained_earnings l s e := by
  unfold retained_earnings
  rw [restatus_dateFilter]
  generalize dateFilter s e l = je
  simp only [restatus, List.filter_map, List.map_map]
  rfl

/-- Claim C10: the report computations are invariant under every rewriting
of the entry statuses (they never read the status field), so the trial
balance, income statement, balance sheet and retained earnings aggregate
all journal entries that match the date filter, Pending, Denied and
Rejected ones included; and the date filter keeps exactly the entries
whose date is in range, with no status condition. -/
theorem reports_ignore_status (accounts : List Account) (entries : List Entry)
    (s e : Option Int) (f : Entry → EStatus) :
    trial_balance (restatus f entries) s e = trial_balance entries s e ∧
    income_statement (restatus f entries) s e =
      income_statement entries s e ∧
    balance_sheet accounts (restatus f entries) s e =
      balance_sheet accounts entries s e ∧
    retained_earnings (restatus f entries) s e =
      retained_earnings entries s e ∧
    (∀ x, x ∈ dateFilter s e entries ↔ x ∈ entries ∧ dateInRange s e x) := by
  refine ⟨restatus_trial_balance f entries s e,
    restatus_income_statement f entries s e,
    restatus_balance_sheet accounts f entries s e,
    restatus_retained_earnings f entries s e, ?_⟩
  intro x
  cases s <;> cases e <;>
    simp [dateFilter, dateInRange, List.mem_filter]

theorem foldl_preserve {β : Type} (P : DB → Prop) (g : DB → β → DB)
    (h : ∀ d x, P d → P (g d x)) :
    ∀ (l : List β) (db : DB), P db → P (l.foldl g db)
  | [], _, hdb => hdb
  | x :: xs, db, hdb => foldl_preserve P g h xs (g db x) (h db x hdb)

theorem map_side_find?_update_presv (l : List Account) (p : Account → Bool)
    (f : Account → Account)
    (hf : ∀ x, (f x).account_name = x.account_name ∧
      (f x).normal_side = x.normal_side) (m : String) :
    Option.map Account.normal_side
        (List.find? (fun x => x.account_name = m) (updateWhere p f l)) =
      Option.map Account.normal_side
        (List.find? (fun x => x.account_name = m) l) := by
  induction l with
  | nil => rfl
  | cons x xs ih =>
    rw [updateWhere_cons]
    by_cases hpx : p x = true
    · rw [if_pos hpx]
      by_cases hq : x.account_name = m
      · rw [List.find?_cons_of_pos _ (by simp [(hf x).1, hq]),
          List.find?_cons_of_pos _ (by simp [hq])]
        simp [(hf x).2]
      · rw [List.find?_cons_of_neg _ (by simp [(hf x).1, hq]),
          List.find?_cons_of_neg _ (by simp [hq]), ih]
    · rw [if_neg hpx]
      by_cases hq : x.account_name = m
      · rw [List.find?_cons_of_pos _ (by simp [hq]),
          List.find?_cons_of_pos _ (by simp [hq])]
      · rw [List.find?_cons_of_neg _ (by simp [hq]),
          List.find?_cons_of_neg _ (by simp [hq]), ih]

theorem map_side_find?_updateConst (l : List Account) (n : String)
    (a a2 : Account)
    (hfind : List.find? (fun x => x.account_name = n) l = some a)
    (hname : a2.account_name = n) (hside : a2.normal_side = a.normal_side)
    (m : String) :
    Option.map Account.normal_side
        (List.find? (fun x => x.account_name = m)
          (updateWhere (fun x => x.account_name = n) (fun _ => a2) l)) =
      Option.map Account.normal_side
        (List.find? (fun x => x.account_name = m) l) := by
  by_cases hmn : m = n
  · subst hmn
    rw [find?_updateWhere_const _ a a2 l hfind (by simp [hname]), hfind]
    simp [hside]
  · rw [find?_updateWhere_untouched (fun x => x.account_name = n)
      (fun x => x.account_name = m) (fun _ => a2) ?_ l]
    intro x hx
    simp only [decide_eq_true_eq] at hx
    constructor
    · simp only [decide_eq_false_iff_not, hx]
      exact fun hh => hmn hh.symm
    · simp only [decide_eq_false_iff_not, hname]
      exact fun hh => hmn hh.symm

theorem sidePair_congr (db1 db2 : DB) (e1 e2 : Entry)
    (h1 : Option.map Account.normal_side (findAccount db1 e1.accountName) =
      Option.map Account.normal_side (findAccount db2 e1.accountName))
    (h2 : Option.map Account.normal_side (findAccount db1 e2.accountName) =
      Option.map Account.normal_side (findAccount db2 e2.accountName)) :
    sidePair db1 e1 e2 = sidePair db2 e1 e2 := by
  unfold sidePair
  cases hx1 : findAccount db1 e1.accountName with
  | none =>
    cases hy1 : findAccount db2 e1.accountName with
    | none => rfl
    | some b1 => rw [hx1, hy1] at h1; simp at h1
  | some a1 =>
    cases hy1 : findAccount db2 e1.accountName with
    | none => rw [hx1, hy1] at h1; simp at h1
    | some b1 =>
      rw [hx1, hy1] at h1
      simp only [Option.map_some', Option.some.injEq] at h1
      cases hx2 : findAccount db1 e2.accountName with
      | none =>
        cases hy2 : findAccount db2 e2.accountName with
        | none => rfl
        | some b2 => rw [hx2, hy2] at h2; simp at h2
      | some a2 =>
        cases hy2 : findAccount db2 e2.accountName with
        | none => rw [hx2, hy2] at h2; simp at h2
        | some b2 =>
          rw [hx2, hy2] at h2
          simp only [Option.map_some', Option.some.injEq] at h2
          show some (a1.normal_side, a2.normal_side) =
            some (b1.normal_side, b2.normal_side)
          rw [h1, h2]

theorem sidePair_mono_append (db : DB) (l2 : List Account) (e1 e2 : Entry)
    (v : String × String) (h : sidePair db e1 e2 = some v) :
    sidePair { db with accounts := db.accounts ++ l2 } e1 e2 = some v := by
  unfold sidePair at h ⊢
  cases hx1 : findAccount db e1.accountName with
  | none => rw [hx1] at h; exact absurd h (by simp)
  | some a1 =>
    cases hx2 : findAccount db e2.accountName with
    | none => rw [hx1, hx2] at h; exact absurd h (by simp)
    | some a2 =>
      rw [hx1, hx2] at h
      have g1 : findAccount { db with accounts := db.accounts ++ l2 }
          e1.accountName = some a1 := by
        show List.find? _ (db.accounts ++ l2) = _
        rw [List.find?_append]
        rw [show List.find? (fun x => x.account_name = e1.accountName)
          db.accounts = some a1 from hx1]
        rfl
      have g2 : findAccount { db with accounts := db.accounts ++ l2 }
          e2.accountName = some a2 := by
        show List.find? _ (db.accounts ++ l2) = _
        rw [List.find?_append]
        rw [show List.find? (fun x => x.account_name = e2.accountName)
          db.accounts = some a2 from hx2]
        rfl
      rw [g1, g2]
      exact h

theorem sidePair_eq_LR (db : DB) (e1 e2 : Entry) (a1 a2 : Account)
    (h1 : findAccount db e1.accountName = some a1)
    (h2 : findAccount db e2.accountName = some a2)
    (hL : a1.normal_side = "Left") (hR : a2.normal_side = "Right") :
    sidePair db e1 e2 = some ("Left", "Right") := by
  unfold sidePair
  rw [h1, h2]
  simp [hL, hR]

theorem invTotals_of_entries_map (db db2 : DB) (m : Entry → Entry)
    (hEnt : db2.entries = db.entries.map m)
    (hNG : db2.nextGroup = db.nextGroup)
    (hm : ∀ x, (m x).group = x.group ∧ (m x).debit = x.debit ∧
      (m x).credit = x.credit) :
    InvTotals db → InvTotals db2 := by
  rintro ⟨hb, hp⟩
  constructor
  · intro e he g hg
    rw [hEnt] at he
    obtain ⟨x, hx, rfl⟩ := List.mem_map.mp he
    rw [hNG]
    exact hb x hx g (by rw [← (hm x).1]; exact hg)
  · rw [hEnt, List.pairwise_map]
    refine hp.imp ?_
    intro e1 e2 hR hg
    have hg0 : sameGroup e1 e2 := by
      unfold sameGroup at hg ⊢
      rw [(hm e1).1, (hm e2).1] at hg
      exact hg
    rw [(hm e1).2.1, (hm e2).2.2]
    exact hR hg0

theorem invSides_of_entries_map (db db2 : DB) (m : Entry → Entry)
    (hEnt : db2.entries = db.entries.map m)
    (hm : ∀ x, (m x).group = x.group ∧ (m x).accountName = x.accountName)
    (hSide : ∀ n, Option.map Account.normal_side (findAccount db2 n) =
      Option.map Account.normal_side (findAccount db n)) :
    InvSides db → InvSides db2 := by
  intro h
  unfold InvSides at h ⊢
  rw [hEnt, List.pairwise_map]
  refine h.imp ?_
  intro e1 e2 hR hg
  have hg0 : sameGroup e1 e2 := by
    unfold sameGroup at hg ⊢
    rw [(hm e1).1, (hm e2).1] at hg
    exact hg
  have hsp : sidePair db2 (m e1) (m e2) = sidePair db e1 e2 := by
    have step := sidePair_congr db2 db (m e1) (m e2)
      (by rw [hSide]) (by rw [hSide])
    rw [step]
    unfold sidePair
    rw [(hm e1).2, (hm e2).2]
  rw [hsp]
  exact hR hg0

theorem invTotals_of_same_entries (db db2 : DB)
    (hE : db2.entries = db.entries) (hG : db2.nextGroup = db.nextGroup) :
    InvTotals db → InvTotals db2 := by
  rintro ⟨hb, hp⟩
  exact ⟨fun e he g hg => hG ▸ hb e (hE ▸ he) g hg, hE ▸ hp⟩

theorem invSides_of_same_entries (db db2 : DB)
    (hE : db2.entries = db.entries)
    (hSide : ∀ n, Option.map Account.normal_side (findAccount db2 n) =
      Option.map Account.normal_side (findAccount db n)) :
    InvSides db → InvSides db2 := by
  intro h
  unfold InvSides at h ⊢
  rw [hE]
  refine h.imp ?_
  intro e1 e2 hR hg
  rw [sidePair_congr db2 db e1 e2 (hSide _) (hSide _)]
  exact hR hg

theorem invTotals_approve (db : DB) (eid : Nat) :
    InvTotals db → InvTotals (JournalEntry.approve db eid) := by
  intro h
  cases hfe : findEntry db eid with
  | none => rw [approve_of_no_entry db eid hfe]; exact h
  | some e =>
    by_cases hp : e.status = EStatus.pending
    · cases hacc : findAccount db e.accountName with
      | none => rw [approve_of_no_account db eid e hfe hp hacc]; exact h
      | some a =>
        rw [approve_pending_form db eid e a hfe hp hacc]
        refine invTotals_of_entries_map db _ _ rfl rfl ?_ h
        intro x
        by_cases hx : x.id = eid <;> simp [hx]
    · rw [approve_of_not_pending db eid e hfe hp]; exact h

theorem invSides_approve (db : DB) (eid : Nat) :
    InvSides db → InvSides (JournalEntry.approve db eid) := by
  intro h
  cases hfe : findEntry db eid with
  | none => rw [approve_of_no_entry db eid hfe]; exact h
  | some e =>
    by_cases hp : e.status = EStatus.pending
    · cases hacc : findAccount db e.accountName with
      | none => rw [approve_of_no_account db eid e hfe hp hacc]; exact h
      | some a =>
        rw [approve_pending_form db eid e a hfe hp hacc]
        refine invSides_of_entries_map db _ _ rfl ?_ ?_ h
        · intro x
          by_cases hx : x.id = eid <;> simp [hx]
        · intro n
          exact map_side_find?_updateConst db.accounts e.accountName a
            { a with
              debit := a.debit + e.debit,
              credit := a.credit + e.credit,
              balance := a.initial_balance + (a.debit + e.debit)
                          - (a.credit + e.credit) }
            hacc (findAccount_name db e.accountName a hacc) rfl n
    · rw [approve_of_not_pending db eid e hfe hp]; exact h

theorem invTotals_reject (db : DB) (gid : Nat) :
    InvTotals db → InvTotals (rejectGroupPost db gid) := by
  intro h
  refine invTotals_of_entries_map db _ _ rfl rfl ?_ h
  intro x
  by_cases hx : x.group = some gid <;> simp [hx]

theorem invSides_reject (db : DB) (gid : Nat) :
    InvSides db → InvSides (rejectGroupPost db gid) := by
  intro h
  refine invSides_of_entries_map db _ _ rfl ?_ ?_ h
  · intro x
    by_cases hx : x.group = some gid <;> simp [hx]
  · intro n
    rfl

theorem invTotals_addJE (db db2 : DB) (inp : JEInput)
    (h : add_journal_entry db inp = Except.ok db2) :
    InvTotals db → InvTotals db2 := by
  rintro ⟨hb, hp⟩
  obtain ⟨d, a1, a2, hd, hc, hpos, hA1, hA2, hL, hR, hdb2⟩ :=
    add_journal_entry_ok_inv db db2 inp h
  subst hdb2
  constructor
  · intro e he g hg
    show g < db.nextGroup + 1
    rcases List.mem_append.mp he with hold | hnew
    · exact Nat.lt_succ_of_lt (hb e hold g hg)
    · simp only [List.mem_cons, List.not_mem_nil, or_false] at hnew
      have hge : g = db.nextGroup := by
        rcases hnew with rfl | rfl <;> exact (Option.some.inj hg).symm
      rw [hge]
      exact Nat.lt_succ_self _
  · refine List.pairwise_append.mpr ⟨hp, ?_, ?_⟩
    · refine List.pairwise_cons.mpr ⟨?_, ?_⟩
      · intro b hb2 _
        simp only [List.mem_singleton] at hb2
        subst hb2
        rfl
      · exact List.pairwise_singleton _ _
    · intro x hx y hy hg
      exfalso
      simp only [List.mem_cons, List.not_mem_nil, or_false] at hy
      have hxg : x.group = some db.nextGroup := by
        rcases hy with rfl | rfl <;> exact hg.2
      exact Nat.lt_irrefl _ (hb x hx db.nextGroup hxg)

theorem invSides_addJE (db db2 : DB) (inp : JEInput)
    (h : add_journal_entry db inp = Except.ok db2)
    (ht : InvTotals db) : InvSides db → InvSides db2 := by
  intro hs
  obtain ⟨d, a1, a2, hd, hc, hpos, hA1, hA2, hL, hR, hdb2⟩ :=
    add_journal_entry_ok_inv db db2 inp h
  subst hdb2
  unfold InvSides at hs ⊢
  refine List.pairwise_append.mpr ⟨hs, ?_, ?_⟩
  · refine List.pairwise_cons.mpr ⟨?_, List.pairwise_singleton _ _⟩
    intro b hb2 _
    simp only [List.mem_singleton] at hb2
    subst hb2
    exact sidePair_eq_LR _ _ _ a1 a2 hA1 hA2 hL hR
  · intro x hx y hy hg
    exfalso
    simp only [List.mem_cons, List.not_mem_nil, or_false] at hy
    have hxg : x.group = some db.nextGroup := by
      rcases hy with rfl | rfl <;> exact hg.2
    exact Nat.lt_irrefl _ (ht.1 x hx db.nextGroup hxg)

theorem invTotals_add_account (db : DB) (a : Account) :
    InvTotals db → InvTotals (add_account db a) := by
  intro h
  unfold add_account
  cases findAccount db a.account_name with
  | some _ => exact h
  | none => exact invTotals_of_same_entries db _ rfl rfl h

theorem invSides_add_account (db : DB) (a : Account) :
    InvSides db → InvSides (add_account db a) := by
  intro h
  unfold add_account
  cases findAccount db a.account_name with
  | some _ => exact h
  | none =>
    unfold InvSides at h ⊢
    refine h.imp ?_
    intro e1 e2 hR hg
    exact sidePair_mono_append db [a] e1 e2 _ (hR hg)

theorem invTotals_edit (db : DB) (n s c : String) :
    InvTotals db → InvTotals (edit_account db n s c) :=
  invTotals_of_same_entries db _ rfl rfl

theorem invTotals_deactivate (db : DB) (n : String) :
    InvTotals db → InvTotals (deactivate_account db n) := by
  intro h
  unfold deactivate_account
  cases findAccount db n with
  | none => exact h
  | some a =>
    by_cases hb : a.balance > 0
    · simp only [hb, if_true]
      exact h
    · simp only [hb, if_false]
      exact invTotals_of_same_entries db _ rfl rfl h

theorem invSides_deactivate (db : DB) (n : String) :
    InvSides db → InvSides (deactivate_account db n) := by
  intro h
  unfold deactivate_account
  cases findAccount db n with
  | none => exact h
  | some a =>
    by_cases hb : a.balance > 0
    · simp only [hb, if_true]
      exact h
    · simp only [hb, if_false]
      refine invSides_of_same_entries db _ rfl ?_ h
      intro m
      exact map_side_find?_update_presv db.accounts
        (fun x => x.account_name = n) (fun x => { x with is_active := false })
        (fun x => ⟨rfl, rfl⟩) m

theorem invTotals_activate (db : DB) (n : String) :
    InvTotals db → InvTotals (activate_account db n) :=
  invTotals_of_same_entries db _ rfl rfl

theorem invSides_activate (db : DB) (n : String) :
    InvSides db → InvSides (activate_account db n) := by
  refine invSides_of_same_entries db _ rfl ?_
  intro m
  exact map_side_find?_update_presv db.accounts
    (fun x => x.account_name = n) (fun x => { x with is_active := true })
    (fun x => ⟨rfl, rfl⟩) m

theorem invTotals_applyOp (db : DB) (op : Op) :
    InvTotals db → InvTotals (applyOp db op) := by
  cases op with
  | addJE inp =>
    simp only [applyOp]
    cases hres : add_journal_entry db inp with
    | ok db2 => exact invTotals_addJE db db2 inp hres
    | error msg => exact id
  | approveGroup gid =>
    intro h
    exact foldl_preserve InvTotals (fun d (x : Entry) => JournalEntry.approve d x.id)
      (fun d x => invTotals_approve d x.id) _ db h
  | rejectGroup gid => exact invTotals_reject db gid
  | addAccount a => exact invTotals_add_account db a
  | editAccount n s c => exact invTotals_edit db n s c
  | deactivateAccount n => exact invTotals_deactivate db n
  | activateAccount n => exact invTotals_activate db n

theorem invBoth_applyOp (db : DB) (op : Op) (hEdit : op.isEditAccount = false) :
    InvTotals db ∧ InvSides db →
      InvTotals (applyOp db op) ∧ InvSides (applyOp db op) := by
  rintro ⟨h1, h2⟩
  refine ⟨invTotals_applyOp db op h1, ?_⟩
  cases op with
  | addJE inp =>
    simp only [applyOp]
    cases hres : add_journal_entry db inp with
    | ok db2 => exact invSides_addJE db db2 inp hres h1 h2
    | error msg => exact h2
  | approveGroup gid =>
    exact foldl_preserve InvSides (fun d (x : Entry) => JournalEntry.approve d x.id)
      (fun d x => invSides_approve d x.id) _ db h2
  | rejectGroup gid => exact invSides_reject db gid h2
  | addAccount a => exact invSides_add_account db a h2
  | editAccount n s c => simp [Op.isEditAccount] at hEdit
  | deactivateAccount n => exact invSides_deactivate db n h2
  | activateAccount n => exact invSides_activate db n h2

theorem invTotals_run (ops : List Op) (db : DB) (h : InvTotals db) :
    InvTotals (run db ops) :=
  foldl_preserve InvTotals applyOp invTotals_applyOp ops db h

theorem invBoth_run (ops : List Op) (db : DB)
    (hNoEdit : ∀ op ∈ ops, op.isEditAccount = false)
    (h : InvTotals db ∧ InvSides db) :
    InvTotals (run db ops) ∧ InvSides (run db ops) := by
  induction ops generalizing db with
  | nil => exact h
  | cons op ops ih =>
    exact ih (applyOp db op)
      (fun o ho => hNoEdit o (List.mem_cons_of_mem _ ho))
      (invBoth_applyOp db op (hNoEdit op (List.mem_cons_self _ _)) h)

theorem invBoth_init (specs : List Account) :
    InvTotals (initState specs) ∧ InvSides (initState specs) := by
  unfold initState
  refine foldl_preserve (fun d => InvTotals d ∧ InvSides d) add_account
    ?_ specs emptyDB ?_
  · rintro d a ⟨u1, u2⟩
    exact ⟨invTotals_add_account d a u1, invSides_add_account d a u2⟩
  · exact ⟨⟨fun e he _ _ => absurd he (List.not_mem_nil e),
      List.Pairwise.nil⟩, List.Pairwise.nil⟩

unseal Rat.add Rat.sub in
/-- Counterexample to claim C3 as stated: from an empty ledger, create and
approve a valid pair, then edit the normal side of the first account from
Left to Right through the chart-of-accounts edit; the resulting reachable
state has an approved pair whose accounts no longer have opposite normal
sides. -/
theorem approved_pairs_broken_by_edit :
    ¬ approvedPairsOk (run (initState [exCash, exRevenue])
      [Op.addJE exInput, Op.approveGroup 0,
       Op.editAccount ("Cash") ("Right") ("Assets")]) := by
  decide

/-- Claim C3 as amended: in every reachable state the totals half of the
invariant holds (the earlier entry of an approved pair has debit equal to
the credit of the later one), and when no chart-of-accounts edit occurs in
the run, the opposite-normal-sides half holds as well. -/
theorem approved_pairs_invariant (specs : List Account) (ops : List Op) :
    approvedPairTotalsOk (run (initState specs) ops) ∧
    ((∀ op ∈ ops, op.isEditAccount = false) →
      approvedPairsOk (run (initState specs) ops)) := by
  have h0 := invBoth_init specs
  constructor
  · have hT := invTotals_run ops _ h0.1
    exact hT.2.imp (fun hR hg _ _ => hR hg)
  · intro hNoEdit
    have hB := invBoth_run ops _ hNoEdit h0
    have hand := hB.1.2.and hB.2
    exact hand.imp (fun hRS hg _ _ => ⟨hRS.1 hg, Or.inl (hRS.2 hg)⟩)

/-- Witness for the amended C3: the example run with no account edit ends
in a state whose approved pair has matching totals and opposite sides. -/
theorem approved_pairs_invariant_witness :
    approvedPairsOk (run (initState [exCash, exRevenue])
      [Op.addJE exInput, Op.approveGroup 0]) :=
  (approved_pairs_invariant [exCash, exRevenue]
    [Op.addJE exInput, Op.approveGroup 0]).2 (by decide)

end LedgerLogic
